import Mathlib

/-!
Verification development for the PSVita loader plugin
(vita_loader.py together with structs.py).

The embedding models the raw file and the loaded BinaryView as incomplete
byte memories (Nat to Option Nat).  BinaryView.read is modelled by
readBytes, which returns the readable prefix of the requested range, so
short reads appear as lists shorter than the requested length.  The
side-effecting BinaryNinja boundary (create_struct, add_function_symbol,
add_data_symbol, log_error) is modelled as a trace of events.  Loops that
the source runs as Python while loops are modelled with explicit fuel,
because termination of the source loops is itself under study.
-/


/-- A byte memory: address to byte, None where the view is unreadable. -/
abbrev Memory := Nat → Option Nat

/-- Model of BinaryView.read(off, n): the readable prefix of n bytes at off. -/
def readBytes (mem : Memory) (off : Nat) : Nat → List Nat
  | 0 => []
  | n + 1 =>
    match mem off with
    | some b => b :: readBytes mem (off + 1) n
    | none => []

/-- Byte i of a byte buffer (defaults to 0; callers guard buffer length). -/
def byteAt (l : List Nat) (i : Nat) : Nat := l.getD i 0

/-- int.from_bytes(data, "little") for a 2-byte buffer. -/
def u16v (l : List Nat) : Nat := byteAt l 0 + 256 * byteAt l 1

/-- struct.unpack("<I", data) for a 4-byte buffer. -/
def u32v (l : List Nat) : Nat :=
  byteAt l 0 + 256 * byteAt l 1 + 65536 * byteAt l 2 + 16777216 * byteAt l 3

/-- The endianness selected by e_ident[5] (self.struct_endianness). -/
inductive Endian where
  | le
  | be
deriving DecidableEq

/-- A 16-bit field at offset i of a buffer, under the selected endianness. -/
def u16At (e : Endian) (l : List Nat) (i : Nat) : Nat :=
  match e with
  | .le => byteAt l i + 256 * byteAt l (i + 1)
  | .be => 256 * byteAt l i + byteAt l (i + 1)

/-- A 32-bit field at offset i of a buffer, under the selected endianness. -/
def u32At (e : Endian) (l : List Nat) (i : Nat) : Nat :=
  match e with
  | .le => byteAt l i + 256 * byteAt l (i + 1) + 65536 * byteAt l (i + 2)
      + 16777216 * byteAt l (i + 3)
  | .be => byteAt l (i + 3) + 256 * byteAt l (i + 2) + 65536 * byteAt l (i + 1)
      + 16777216 * byteAt l i

/-- Uppercase hex digit, as produced by the Python format specifier X. -/
def hexDigitChar (n : Nat) : Char :=
  if n < 10 then Char.ofNat (48 + n) else Char.ofNat (55 + n)

/-- Hex digits of n, most significant first (fuel-bounded recursion). -/
def hexDigitsAux : Nat → Nat → List Char
  | 0, _ => []
  | fuel + 1, n =>
    if n < 16 then [hexDigitChar n]
    else hexDigitsAux fuel (n / 16) ++ [hexDigitChar (n % 16)]

/-- The Python format expression {n:08X}: uppercase hex, zero-padded to 8. -/
def pyFormat08X (n : Nat) : String :=
  let ds := hexDigitsAux (n + 1) n
  ⟨List.replicate (8 - ds.length) '0' ++ ds⟩

/-- Bytes of the C string at addr in the loaded view: stop at a NUL byte or
at an unreadable address (read_string_at while loop, fuel-bounded). -/
def readStringBytes (bv : Memory) (addr : Nat) : Nat → List Nat
  | 0 => []
  | fuel + 1 =>
    match bv addr with
    | none => []
    | some 0 => []
    | some b => b :: readStringBytes bv (addr + 1) fuel

/-- read_string_at: NUL-terminated string at addr, decoded as ASCII with
errors ignored (bytes of 128 and above are dropped). -/
def read_string_at (fuel : Nat) (bv : Memory) (addr : Nat) : String :=
  ⟨((readStringBytes bv addr fuel).filter (· < 128)).map Char.ofNat⟩

/-- One library entry of the NID database: its nid key (absent allowed) and
its functions and variables maps, in document order. -/
structure NidLib where
  nid : Option Nat
  functions : List (String × Nat)
  vars : List (String × Nat)
deriving DecidableEq

/-- One module entry: its libraries map, when the libraries key is present. -/
structure NidModule where
  libraries : Option (List (String × NidLib))
deriving DecidableEq

/-- The whole database; none covers both an absent database and a document
without a modules key (the source guards nid_database and "modules" in it). -/
abbrev NidDb := Option (List (String × NidModule))

/-- Innermost loop of lookup_nid_function: scan a functions map for the nid. -/
def lookupFnInFunctions : List (String × Nat) → Nat → Option String
  | [], _ => none
  | (name, nid) :: rest, fnid =>
    if nid = fnid then some name else lookupFnInFunctions rest fnid

/-- Middle loop of lookup_nid_function: scan libraries whose stored nid
matches the library nid; keep scanning on an inner miss. -/
def lookupFnInLibraries : List (String × NidLib) → Nat → Nat → Option String
  | [], _, _ => none
  | (_, lib) :: rest, lnid, fnid =>
    if lib.nid = some lnid then
      match lookupFnInFunctions lib.functions fnid with
      | some n => some n
      | none => lookupFnInLibraries rest lnid fnid
    else lookupFnInLibraries rest lnid fnid

/-- Outer loop of lookup_nid_function: scan every module. -/
def lookupFnInModules : List (String × NidModule) → Nat → Nat → Option String
  | [], _, _ => none
  | (_, m) :: rest, lnid, fnid =>
    match m.libraries with
    | some libs =>
      match lookupFnInLibraries libs lnid fnid with
      | some n => some n
      | none => lookupFnInModules rest lnid fnid
    | none => lookupFnInModules rest lnid fnid

/-- lookup_nid_function: database scan, with the synthetic fallback name
library_name _ function_nid as 8 uppercase hex digits. -/
def lookup_nid_function (db : NidDb) (lnid fnid : Nat) (lname : String) : String :=
  match db with
  | some mods =>
    match lookupFnInModules mods lnid fnid with
    | some n => n
    | none => lname ++ "_" ++ pyFormat08X fnid
  | none => lname ++ "_" ++ pyFormat08X fnid

/-- Innermost loop of lookup_nid_variable: scan a variables map. -/
def lookupVarInVariables : List (String × Nat) → Nat → Option String
  | [], _ => none
  | (name, nid) :: rest, vnid =>
    if nid = vnid then some name else lookupVarInVariables rest vnid

/-- Middle loop of lookup_nid_variable. -/
def lookupVarInLibraries : List (String × NidLib) → Nat → Nat → Option String
  | [], _, _ => none
  | (_, lib) :: rest, lnid, vnid =>
    if lib.nid = some lnid then
      match lookupVarInVariables lib.vars vnid with
      | some n => some n
      | none => lookupVarInLibraries rest lnid vnid
    else lookupVarInLibraries rest lnid vnid

/-- Outer loop of lookup_nid_variable. -/
def lookupVarInModules : List (String × NidModule) → Nat → Nat → Option String
  | [], _, _ => none
  | (_, m) :: rest, lnid, vnid =>
    match m.libraries with
    | some libs =>
      match lookupVarInLibraries libs lnid vnid with
      | some n => some n
      | none => lookupVarInModules rest lnid vnid
    | none => lookupVarInModules rest lnid vnid

/-- lookup_nid_variable: database scan with the synthetic fallback name. -/
def lookup_nid_variable (db : NidDb) (lnid vnid : Nat) (lname : String) : String :=
  match db with
  | some mods =>
    match lookupVarInModules mods lnid vnid with
    | some n => n
    | none => lname ++ "_" ++ pyFormat08X vnid
  | none => lname ++ "_" ++ pyFormat08X vnid

/-- Specification-style first match for functions: the same scan order
expressed with List.findSome? (used to characterize the source scan). -/
def nidFirstMatchFn (mods : List (String × NidModule)) (lnid fnid : Nat) : Option String :=
  mods.findSome? fun p =>
    (p.2.libraries.getD []).findSome? fun q =>
      if q.2.nid = some lnid then
        q.2.functions.findSome? fun r => if r.2 = fnid then some r.1 else none
      else none

/-- Specification-style first match for variables. -/
def nidFirstMatchVar (mods : List (String × NidModule)) (lnid vnid : Nat) : Option String :=
  mods.findSome? fun p =>
    (p.2.libraries.getD []).findSome? fun q =>
      if q.2.nid = some lnid then
        q.2.vars.findSome? fun r => if r.2 = vnid then some r.1 else none
      else none

/-- One program-header entry, struct.unpack(IIIIIIII) field order. -/
structure Phdr where
  p_type : Nat
  p_offset : Nat
  p_vaddr : Nat
  p_paddr : Nat
  p_filesz : Nat
  p_memsz : Nat
  p_flags : Nat
  p_align : Nat
deriving DecidableEq

/-- get_module_info_offset: for the three recognized type codes, index the
program-header table by the top two bits of e_entry and add the low 30 bits
of e_entry to that loadable segment file offset; every other path yields
none (the implicit Python None). -/
def get_module_info_offset (e_type e_entry : Nat) (phs : List Phdr) : Option Nat :=
  if e_type = 0xFE04 ∨ e_type = 0xFFA5 ∨ e_type = 0xFE00 then
    let seg_idx := (e_entry >>> 30) &&& 0x3
    let seg_offset := e_entry &&& 0x3FFFFFFF
    match phs[seg_idx]? with
    | some ph => if ph.p_type = 1 then some (ph.p_offset + seg_offset) else none
    | none => none
  else none

/-- Database used in the C6 concrete cases: one library whose stored nid
matches, whose functions map lacks 0xDEADBEEF. -/
def dbSceKernel : NidDb :=
  some [("kernel_module",
    { libraries := some [("SceKernelLib",
        { nid := some 0x11111111,
          functions := [("sceKernelGetThreadId", 0x12345678)],
          vars := [] })] })]

/-- Database used for the C6 first-match case: two function names mapped to
the same identifier; the scan must return the first in document order. -/
def dbDup : NidDb :=
  some [("dup_module",
    { libraries := some [("DupLib",
        { nid := some 1,
          functions := [("firstName", 2), ("secondName", 2)],
          vars := [("firstVar", 3), ("secondVar", 3)] })] })]

inductive Event where
  | funcSym (addr : Int) (name : String)
  | dataSym (addr : Nat) (name : String)
  | structDef (ty : String) (addr : Nat)
  | errorLog (msg : String)
deriving DecidableEq

/-- Library-name resolution of process_exports: the literal NONAME exactly
when the attribute halfword equals 0x8000 and the library-name address is
zero, otherwise a string read from the loaded view. -/
def resolveLibraryName (fuel : Nat) (bv : Memory) (attrib libnameAddr : Nat) : String :=
  if attrib = 0x8000 ∧ libnameAddr = 0 then "NONAME"
  else read_string_at fuel bv libnameAddr

/-- The body of the export function loop after both 4-byte reads succeed:
returns the emitted function-symbol event and the module-start value this
entry assigns (none when it does not assign one).  The NONAME module_start
entry emits at faddr - 1 and retains the unadjusted faddr. -/
def processExportFuncEntry (db : NidDb) (lnid : Nat) (lname : String)
    (fnid faddr : Nat) : Event × Option Nat :=
  if lname = "NONAME" ∧ fnid = 0x935CD196 then
    (Event.funcSym ((faddr : Int) - 1) "module_start", some faddr)
  else
    (Event.funcSym (faddr : Int) (lookup_nid_function db lnid fnid lname), none)

/-- The body of the export variable loop after both 4-byte reads succeed:
for the NONAME library the two well-known identifiers lead to create_struct
calls (and no add_data_symbol); any other NONAME identifier does nothing;
for every other library the resolved name is emitted as a data symbol. -/
def processExportVarEntry (db : NidDb) (lnid : Nat) (lname : String)
    (vnid vaddr : Nat) : List Event :=
  if lname = "NONAME" then
    if vnid = 0x6C2224BA then [Event.structDef "SceModuleInfo_prx2arm" vaddr]
    else if vnid = 0x70FBA1E7 then [Event.structDef "SceProcessParam" vaddr]
    else []
  else
    [Event.dataSym vaddr (lookup_nid_variable db lnid vnid lname)]

/-- The export function loop: for i below nfunc read the 4-byte nid and
entry values from the loaded view; a short read skips the entry; the last
module_start assignment wins. -/
def exportFuncs (bv : Memory) (db : NidDb) (lnid : Nat) (lname : String)
    (nidT entT n : Nat) : List Event × Option Nat :=
  (List.range n).foldl
    (fun acc i =>
      let nd := readBytes bv (nidT + i * 4) 4
      let ed := readBytes bv (entT + i * 4) 4
      if nd.length < 4 ∨ ed.length < 4 then acc
      else
        let pr := processExportFuncEntry db lnid lname (u32v nd) (u32v ed)
        (acc.1 ++ [pr.1], match pr.2 with | some v => some v | none => acc.2))
    ([], none)

/-- The export variable loop: indices are offset by nfunc in the same
parallel tables; a short read skips the entry. -/
def exportVars (bv : Memory) (db : NidDb) (lnid : Nat) (lname : String)
    (nidT entT nfunc n : Nat) : List Event :=
  (List.range n).foldl
    (fun acc i =>
      let nd := readBytes bv (nidT + (nfunc + i) * 4) 4
      let ed := readBytes bv (entT + (nfunc + i) * 4) 4
      if nd.length < 4 ∨ ed.length < 4 then acc
      else acc ++ processExportVarEntry db lnid lname (u32v nd) (u32v ed))
    []

/-- The export record _scelibent_prx2arm, struct BBHHHHHBBBBIIII (0x20-byte
fixed prefix of the record). -/
structure SceLibEnt where
  structsize : Nat
  reserved1 : Nat
  version : Nat
  attrib : Nat
  nfunc : Nat
  nvar : Nat
  ntlsvar : Nat
  hashinfo : Nat
  hashinfotls : Nat
  reserved2 : Nat
  nidaltsets : Nat
  libname_nid : Nat
  libname : Nat
  nidtable : Nat
  addtable : Nat
deriving DecidableEq

/-- Decode the 0x20-byte export-record prefix (the attribute field of the
source is spelled attrib here because attribute is reserved in Lean). -/
def decodeLibEnt (e : Endian) (d : List Nat) : SceLibEnt :=
  { structsize := byteAt d 0
    reserved1 := byteAt d 1
    version := u16At e d 2
    attrib := u16At e d 4
    nfunc := u16At e d 6
    nvar := u16At e d 8
    ntlsvar := u16At e d 10
    hashinfo := byteAt d 12
    hashinfotls := byteAt d 13
    reserved2 := byteAt d 14
    nidaltsets := byteAt d 15
    libname_nid := u32At e d 16
    libname := u32At e d 20
    nidtable := u32At e d 24
    addtable := u32At e d 28 }

/-- Outcome of one export-record iteration: halt aborts the loop appending
the error events; cont advances the cursor to off2 appending evs and, when
ms is set, overwriting the retained module-start address. -/
inductive ExportStepRes where
  | halt (errs : List Event)
  | cont (off2 : Nat) (evs : List Event) (ms : Option Nat)
deriving DecidableEq

/-- One iteration of the process_exports while loop at cursor off: read the
2-byte size, reread size bytes, abort on short reads or a record shorter
than the 0x20 fixed layout, else decode, register the struct overlay,
resolve the library name, walk function and variable sub-tables, then
advance by the one-byte structsize field of the record. -/
def exportStep (e : Endian) (sf : Nat) (raw bv : Memory) (db : NidDb)
    (baseAddr phOffset off : Nat) : ExportStepRes :=
  let sz2 := readBytes raw off 2
  if sz2.length < 2 then .halt [Event.errorLog "Incomplete export size data"]
  else
    let exportSize := u16v sz2
    let data := readBytes raw off exportSize
    if data.length < exportSize then .halt [Event.errorLog "Incomplete export data"]
    else if data.length < 32 then .halt [Event.errorLog "Incomplete export structure"]
    else
      let r := decodeLibEnt e data
      let absAddr := baseAddr + off - phOffset
      let lname := resolveLibraryName sf bv r.attrib r.libname
      let fr := exportFuncs bv db r.libname_nid lname r.nidtable r.addtable r.nfunc
      let vevs := exportVars bv db r.libname_nid lname r.nidtable r.addtable r.nfunc r.nvar
      .cont (off + r.structsize)
        (Event.structDef "SceLibEnt_prx2arm" absAddr :: (fr.1 ++ vevs)) fr.2

/-- Accumulated state of an export walk: the event trace and the retained
module-start address (self.module_start_addr). -/
structure ExpState where
  events : List Event
  moduleStart : Option Nat
deriving DecidableEq

/-- The process_exports while loop, fuel-bounded: none means the fuel ran
out with the loop still running (the source loop would still be running). -/
def exportLoop (e : Endian) (sf : Nat) (raw bv : Memory) (db : NidDb)
    (baseAddr phOffset fin : Nat) : Nat → Nat → ExpState → Option ExpState
  | 0, off, st => if off < fin then none else some st
  | fuel + 1, off, st =>
    if off < fin then
      match exportStep e sf raw bv db baseAddr phOffset off with
      | .halt errs => some { st with events := st.events ++ errs }
      | .cont off2 evs ms =>
        exportLoop e sf raw bv db baseAddr phOffset fin fuel off2
          { events := st.events ++ evs
            moduleStart := match ms with | some v => some v | none => st.moduleStart }
    else some st

/-- process_exports: adjust the module-info bounds by the first program
header file offset, report when either adjusted bound is zero (Python
falsiness check), else run the record loop from the adjusted top. -/
def process_exports (e : Endian) (sf : Nat) (raw bv : Memory) (db : NidDb)
    (baseAddr phOffset exportTop exportEnd fuel : Nat) : Option ExpState :=
  let off := exportTop + phOffset
  let fin := exportEnd + phOffset
  if off = 0 ∨ fin = 0 then
    some { events := [Event.errorLog "Export sections not defined in SceModuleInfo."]
           moduleStart := none }
  else exportLoop e sf raw bv db baseAddr phOffset fin fuel off
    { events := [], moduleStart := none }

/-- The import record _scelibstub_prx2arm, struct BBHHHHH4sIIIIIIIII
(0x34 bytes, 17 fields including SDK version and TLS tables). -/
structure SceLibStub34 where
  structsize : Nat
  reserved1 : Nat
  version : Nat
  attrib : Nat
  nfunc : Nat
  nvar : Nat
  ntlsvar : Nat
  reserved2 : List Nat
  libname_nid : Nat
  libname : Nat
  sce_sdk_version : Nat
  func_nidtable : Nat
  func_table : Nat
  var_nidtable : Nat
  var_table : Nat
  tls_nidtable : Nat
  tls_table : Nat
deriving DecidableEq

/-- The import record _scelibstub_prx2arm_new, struct BBHHHHHIIIIII
(0x24 bytes, 13 fields, no SDK version and no TLS tables). -/
structure SceLibStub24 where
  structsize : Nat
  reserved1 : Nat
  version : Nat
  attrib : Nat
  nfunc : Nat
  nvar : Nat
  ntlsvar : Nat
  libname_nid : Nat
  libname : Nat
  func_nidtable : Nat
  func_table : Nat
  var_nidtable : Nat
  var_table : Nat
deriving DecidableEq

/-- Decode the 0x34-byte extended import record. -/
def decodeStub34 (e : Endian) (d : List Nat) : SceLibStub34 :=
  { structsize := byteAt d 0
    reserved1 := byteAt d 1
    version := u16At e d 2
    attrib := u16At e d 4
    nfunc := u16At e d 6
    nvar := u16At e d 8
    ntlsvar := u16At e d 10
    reserved2 := [byteAt d 12, byteAt d 13, byteAt d 14, byteAt d 15]
    libname_nid := u32At e d 16
    libname := u32At e d 20
    sce_sdk_version := u32At e d 24
    func_nidtable := u32At e d 28
    func_table := u32At e d 32
    var_nidtable := u32At e d 36
    var_table := u32At e d 40
    tls_nidtable := u32At e d 44
    tls_table := u32At e d 48 }

/-- Decode the 0x24-byte compact import record. -/
def decodeStub24 (e : Endian) (d : List Nat) : SceLibStub24 :=
  { structsize := byteAt d 0
    reserved1 := byteAt d 1
    version := u16At e d 2
    attrib := u16At e d 4
    nfunc := u16At e d 6
    nvar := u16At e d 8
    ntlsvar := u16At e d 10
    libname_nid := u32At e d 12
    libname := u32At e d 16
    func_nidtable := u32At e d 20
    func_table := u32At e d 24
    var_nidtable := u32At e d 28
    var_table := u32At e d 32 }

/-- A decoded import record, tagged by the on-disk shape that produced it. -/
inductive ImportRec where
  | rec34 (r : SceLibStub34)
  | rec24 (r : SceLibStub24)
deriving DecidableEq

/-- The import function loop: no NONAME special-casing, every entry is
resolved through the database and emitted; short reads skip the entry. -/
def importFuncs (bv : Memory) (db : NidDb) (lnid : Nat) (lname : String)
    (nidT entT n : Nat) : List Event :=
  (List.range n).foldl
    (fun acc i =>
      let nd := readBytes bv (nidT + i * 4) 4
      let ed := readBytes bv (entT + i * 4) 4
      if nd.length < 4 ∨ ed.length < 4 then acc
      else acc ++ [Event.funcSym (u32v ed : Int)
        (lookup_nid_function db lnid (u32v nd) lname)])
    []

/-- The import variable loop. -/
def importVars (bv : Memory) (db : NidDb) (lnid : Nat) (lname : String)
    (nidT entT n : Nat) : List Event :=
  (List.range n).foldl
    (fun acc i =>
      let nd := readBytes bv (nidT + i * 4) 4
      let ed := readBytes bv (entT + i * 4) 4
      if nd.length < 4 ∨ ed.length < 4 then acc
      else acc ++ [Event.dataSym (u32v ed)
        (lookup_nid_variable db lnid (u32v nd) lname)])
    []

/-- Outcome of one import-record iteration; cont also carries the decoded
record so the walk keeps every record decoded before an abort. -/
inductive ImportStepRes where
  | halt (errs : List Event)
  | cont (off2 : Nat) (evs : List Event) (rec : ImportRec)
deriving DecidableEq

/-- One iteration of the process_imports while loop at cursor off: read the
2-byte size, dispatch on the literal values 0x34 and 0x24 (any other size
aborts the import loop), reread size bytes, decode by the selected shape,
register the struct overlay, read the library name from the loaded view,
walk function and variable sub-tables, then advance by the one-byte
structsize field. -/
def importStep (e : Endian) (sf : Nat) (raw bv : Memory) (db : NidDb)
    (baseAddr phOffset off : Nat) : ImportStepRes :=
  let sz2 := readBytes raw off 2
  if sz2.length < 2 then .halt [Event.errorLog "Incomplete import size data"]
  else
    let importSize := u16v sz2
    if importSize = 0x34 ∨ importSize = 0x24 then
      let data := readBytes raw off importSize
      if data.length < importSize then .halt [Event.errorLog "Incomplete import data"]
      else
        let absAddr := baseAddr + off - phOffset
        if importSize = 0x34 then
          let r := decodeStub34 e data
          let lname := read_string_at sf bv r.libname
          let fevs := importFuncs bv db r.libname_nid lname r.func_nidtable r.func_table r.nfunc
          let vevs := importVars bv db r.libname_nid lname r.var_nidtable r.var_table r.nvar
          .cont (off + r.structsize)
            (Event.structDef "SceLibStub_prx2arm" absAddr :: (fevs ++ vevs))
            (.rec34 r)
        else
          let r := decodeStub24 e data
          let lname := read_string_at sf bv r.libname
          let fevs := importFuncs bv db r.libname_nid lname r.func_nidtable r.func_table r.nfunc
          let vevs := importVars bv db r.libname_nid lname r.var_nidtable r.var_table r.nvar
          .cont (off + r.structsize)
            (Event.structDef "SceLibStub_prx2arm_new" absAddr :: (fevs ++ vevs))
            (.rec24 r)
    else .halt [Event.errorLog "Unknown import size"]

/-- Accumulated state of an import walk: the event trace and the records
decoded so far. -/
structure ImpState where
  events : List Event
  records : List ImportRec
deriving DecidableEq

/-- The process_imports while loop, fuel-bounded. -/
def importLoop (e : Endian) (sf : Nat) (raw bv : Memory) (db : NidDb)
    (baseAddr phOffset fin : Nat) : Nat → Nat → ImpState → Option ImpState
  | 0, off, st => if off < fin then none else some st
  | fuel + 1, off, st =>
    if off < fin then
      match importStep e sf raw bv db baseAddr phOffset off with
      | .halt errs => some { st with events := st.events ++ errs }
      | .cont off2 evs rec =>
        importLoop e sf raw bv db baseAddr phOffset fin fuel off2
          { events := st.events ++ evs, records := st.records ++ [rec] }
    else some st

/-- process_imports: bounds adjustment and zero check as in
process_exports, then the import record loop. -/
def process_imports (e : Endian) (sf : Nat) (raw bv : Memory) (db : NidDb)
    (baseAddr phOffset importTop importEnd fuel : Nat) : Option ImpState :=
  let off := importTop + phOffset
  let fin := importEnd + phOffset
  if off = 0 ∨ fin = 0 then
    some { events := [Event.errorLog "Import sections not defined in SceModuleInfo."]
           records := [] }
  else importLoop e sf raw bv db baseAddr phOffset fin fuel off
    { events := [], records := [] }

/-- The everywhere-unreadable memory. -/
def memNone : Memory := fun _ => none

/-- A memory holding the single byte 65 (the letter A) at address 0. -/
def memA : Memory := fun a => if a = 0 then some 65 else none

/-- A memory backed by a finite list of bytes. -/
def memOfList (l : List Nat) : Memory := fun a => l[a]?

/-- Import-table bytes for the C3 witness: a compact 0x24-size record at
offset 4 (structsize byte 0x24), followed at offset 0x28 by a record whose
2-byte size 0x10 is neither recognized shape. -/
def memImp : Memory :=
  memOfList (List.replicate 4 0 ++ [0x24, 0] ++ List.replicate 34 0 ++ [0x10, 0])

/-- Export-table bytes realizing the stalling record: at cursor 4 the
2-byte size reads 0x100 (first byte 0, second byte 1), the 256-byte record
read succeeds, and the decoded one-byte structsize is 0, so the cursor
stays at 4. -/
def badMem : Memory := fun a =>
  if a = 5 then some 1 else if a < 300 then some 0 else none

/-- A memory whose bytes are all 1 (within a window), so every structsize
byte is positive. -/
def memOnes : Memory := fun a => if a < 100 then some 1 else none

/-- The decoded executable header: e_ident class and data encoding plus the
13 fields of struct HHIIIIIHHHHHH unpacked from bytes 16 to 52. -/
structure ElfHeaderRec where
  ei_class : Nat
  ei_data : Nat
  e_type : Nat
  e_machine : Nat
  e_version : Nat
  e_entry : Nat
  e_phoff : Nat
  e_shoff : Nat
  e_flags : Nat
  e_ehsize : Nat
  e_phentsize : Nat
  e_phnum : Nat
  e_shentsize : Nat
  e_shnum : Nat
  e_shstrndx : Nat
deriving DecidableEq

/-- A 16-bit value from two bytes under the selected endianness. -/
def u16pair (e : Endian) (a b : Nat) : Nat :=
  match e with
  | .le => a + 256 * b
  | .be => 256 * a + b

/-- A 32-bit value from four bytes under the selected endianness. -/
def u32quad (e : Endian) (a b c d : Nat) : Nat :=
  match e with
  | .le => a + 256 * b + 65536 * c + 16777216 * d
  | .be => d + 256 * c + 65536 * b + 16777216 * a

/-- parse_elf header part: requires at least 52 readable bytes (otherwise
the unpack of bytes 16 to 52 raises), byte 4 equal to 1 (32-bit class) and
byte 5 equal to 1 or 2 (encoding); bytes 0 to 3 and 6 to 15 of e_ident are
read but not retained by the source. -/
def parseElfHeader : List Nat → Option ElfHeaderRec
  | _b0 :: _b1 :: _b2 :: _b3 :: cls :: dat :: _b6 :: _b7 :: _b8 :: _b9 :: _b10
      :: _b11 :: _b12 :: _b13 :: _b14 :: _b15
      :: t0 :: t1 :: m0 :: m1 :: v0 :: v1 :: v2 :: v3
      :: en0 :: en1 :: en2 :: en3 :: po0 :: po1 :: po2 :: po3
      :: so0 :: so1 :: so2 :: so3 :: fl0 :: fl1 :: fl2 :: fl3
      :: eh0 :: eh1 :: pe0 :: pe1 :: pn0 :: pn1 :: se0 :: se1
      :: sn0 :: sn1 :: sx0 :: sx1 :: _rest =>
    if cls ≠ 1 then none
    else if dat = 1 ∨ dat = 2 then
      let e : Endian := if dat = 1 then .le else .be
      some { ei_class := cls
             ei_data := dat
             e_type := u16pair e t0 t1
             e_machine := u16pair e m0 m1
             e_version := u32quad e v0 v1 v2 v3
             e_entry := u32quad e en0 en1 en2 en3
             e_phoff := u32quad e po0 po1 po2 po3
             e_shoff := u32quad e so0 so1 so2 so3
             e_flags := u32quad e fl0 fl1 fl2 fl3
             e_ehsize := u16pair e eh0 eh1
             e_phentsize := u16pair e pe0 pe1
             e_phnum := u16pair e pn0 pn1
             e_shentsize := u16pair e se0 se1
             e_shnum := u16pair e sn0 sn1
             e_shstrndx := u16pair e sx0 sx1 }
    else none
  | _ => none

/-- Decode one program-header entry (struct IIIIIIII on a 32-byte buffer). -/
def decodePhdr (e : Endian) (d : List Nat) : Phdr :=
  { p_type := u32At e d 0
    p_offset := u32At e d 4
    p_vaddr := u32At e d 8
    p_paddr := u32At e d 12
    p_filesz := u32At e d 16
    p_memsz := u32At e d 20
    p_flags := u32At e d 24
    p_align := u32At e d 28 }

/-- The program-header loop of parse_elf, iterating i upward with k entries
remaining: a short read logs and skips the entry; a full read of a size
other than 32 makes the 8-word unpack raise (none, fatal). -/
def parsePhdrsLoop (e : Endian) (mem : Memory) (phoff phentsize : Nat) :
    Nat → Nat → Option (List Phdr)
  | _, 0 => some []
  | i, k + 1 =>
    let data := readBytes mem (phoff + i * phentsize) phentsize
    if data.length < phentsize then parsePhdrsLoop e mem phoff phentsize (i + 1) k
    else if phentsize = 32 then
      (parsePhdrsLoop e mem phoff phentsize (i + 1) k).map (decodePhdr e data :: ·)
    else none

/-- The state parse_elf leaves behind: header fields, the program-header
table, and base_addr taken from entry 0 (p_vaddr). -/
structure ElfState where
  header : ElfHeaderRec
  phdrs : List Phdr
  baseAddr : Nat
deriving DecidableEq

/-- parse_elf: read 0x40 bytes, decode the header, read e_phnum entries,
then take base_addr from program_headers[0][2]; an empty table makes that
subscript raise (none, fatal). -/
def parseElf (mem : Memory) : Option ElfState :=
  match parseElfHeader (readBytes mem 0 0x40) with
  | none => none
  | some h =>
    let e : Endian := if h.ei_data = 1 then .le else .be
    match parsePhdrsLoop e mem h.e_phoff h.e_phentsize 0 h.e_phnum with
    | none => none
    | some phs =>
      match phs with
      | [] => none
      | ph0 :: _ => some { header := h, phdrs := phs, baseAddr := ph0.p_vaddr }

/-- Specification-style program-header table (modelled from the spec words
for the amended C8: entries in table order with short reads omitted). -/
def phdrsSpecList (e : Endian) (mem : Memory) (phoff n : Nat) : List Phdr :=
  (List.range n).filterMap fun i =>
    let d := readBytes mem (phoff + i * 32) 32
    if d.length < 32 then none else some (decodePhdr e d)

/-- Little-endian re-encoding of a 16-bit field (modelled from the spec
words: re-encoding the decoded fields). -/
def enc16 (v : Nat) : List Nat := [v % 256, v / 256 % 256]

/-- Little-endian re-encoding of a 32-bit field. -/
def enc32 (v : Nat) : List Nat :=
  [v % 256, v / 256 % 256, v / 65536 % 256, v / 16777216 % 256]

/-- Re-encoding of the 13 decoded header fields, bytes 16 to 52 of the
header (modelled from the spec words; e_ident bytes 0 to 3 and 6 to 15 are
not decoded by the source and so cannot be re-encoded). -/
def encodeHeaderFieldsLE (f : ElfHeaderRec) : List Nat :=
  enc16 f.e_type ++ enc16 f.e_machine ++ enc32 f.e_version ++ enc32 f.e_entry
    ++ enc32 f.e_phoff ++ enc32 f.e_shoff ++ enc32 f.e_flags ++ enc16 f.e_ehsize
    ++ enc16 f.e_phentsize ++ enc16 f.e_phnum ++ enc16 f.e_shentsize
    ++ enc16 f.e_shnum ++ enc16 f.e_shstrndx

/-- Field bytes 16 to 52 shared by the two C7 counterexample headers. -/
def hdrTail : List Nat :=
  [0x04, 0xFE, 0x28, 0x00, 1, 0, 0, 0, 0x80, 0, 0, 0x40, 0x34, 0, 0, 0,
   0, 0, 0, 0, 0, 0, 0, 0, 0x34, 0, 0x20, 0, 1, 0, 0, 0, 0, 0, 0, 0]

/-- A valid 32-bit little-endian header (magic, class 1, encoding 1,
e_ident version 1, zero padding). -/
def hdrA : List Nat :=
  [0x7F, 0x45, 0x4C, 0x46, 1, 1, 1, 0, 0, 0, 0, 0, 0, 0, 0, 0] ++ hdrTail

/-- The same header with e_ident padding byte 8 set to 1: still a valid
32-bit little-endian header, decoding to the same fields. -/
def hdrB : List Nat :=
  [0x7F, 0x45, 0x4C, 0x46, 1, 1, 1, 0, 1, 0, 0, 0, 0, 0, 0, 0] ++ hdrTail

/-- A valid header whose e_phnum is zero (bytes 44 and 45 are zero). -/
def hdrC8 : List Nat :=
  [0x7F, 0x45, 0x4C, 0x46, 1, 1, 1, 0, 0, 0, 0, 0, 0, 0, 0, 0]
    ++ [0x04, 0xFE, 0x28, 0x00, 1, 0, 0, 0, 0, 0, 0, 0, 0x34, 0, 0, 0,
        0, 0, 0, 0, 0, 0, 0, 0, 0x34, 0, 0x20, 0, 0, 0, 0, 0, 0, 0, 0, 0]

/-! ## Theorems: helper lemmas and the claim theorems -/

/-- C1: get_module_info_offset returns the offset p_offset + (e_entry and
0x3FFFFFFF) of the entry indexed by (e_entry shifted right 30) and 0x3
exactly when the type code is one of 0xFE04, 0xFE00, 0xFFA5, that index is
within the program-header table, and the entry type is PT_LOAD; in every
other case it returns none. -/
theorem C1_get_module_info_offset_iff (t entry : Nat) (phs : List Phdr) (r : Nat) :
    get_module_info_offset t entry phs = some r ↔
      ((t = 0xFE04 ∨ t = 0xFE00 ∨ t = 0xFFA5) ∧
        ∃ ph, phs[(entry >>> 30) &&& 0x3]? = some ph ∧ ph.p_type = 1 ∧
          r = ph.p_offset + (entry &&& 0x3FFFFFFF)) := by
  unfold get_module_info_offset
  by_cases ht : t = 0xFE04 ∨ t = 0xFFA5 ∨ t = 0xFE00
  · simp only [if_pos ht]
    cases hidx : phs[(entry >>> 30) &&& 0x3]? with
    | none =>
      simp only [hidx]
      constructor
      · intro h; cases h
      · rintro ⟨-, ph, hph, -⟩; cases hph
    | some ph =>
      simp only [hidx]
      constructor
      · intro h
        by_cases hty : ph.p_type = 1
        · rw [if_pos hty] at h
          refine ⟨by tauto, ph, rfl, hty, ?_⟩
          cases h; rfl
        · rw [if_neg hty] at h; cases h
      · rintro ⟨-, ph2, hph2, hty, hr⟩
        cases hph2
        rw [if_pos hty, hr]
  · rw [if_neg ht]
    constructor
    · intro h; cases h
    · rintro ⟨ht2, -⟩
      exact absurd (by tauto) ht

theorem lookupFnInFunctions_eq_findSome (fns : List (String × Nat)) (fnid : Nat) :
    lookupFnInFunctions fns fnid
      = fns.findSome? (fun r => if r.2 = fnid then some r.1 else none) := by
  induction fns with
  | nil => rfl
  | cons hd tl ih =>
    obtain ⟨name, nid⟩ := hd
    by_cases h : nid = fnid
    · simp [lookupFnInFunctions, List.findSome?_cons, h]
    · simp [lookupFnInFunctions, List.findSome?_cons, h, ih]

theorem lookupFnInLibraries_eq_findSome (libs : List (String × NidLib)) (lnid fnid : Nat) :
    lookupFnInLibraries libs lnid fnid
      = libs.findSome? (fun q =>
          if q.2.nid = some lnid then
            q.2.functions.findSome? fun r => if r.2 = fnid then some r.1 else none
          else none) := by
  induction libs with
  | nil => rfl
  | cons hd tl ih =>
    obtain ⟨name, lib⟩ := hd
    by_cases h : lib.nid = some lnid
    · cases hin : lookupFnInFunctions lib.functions fnid with
      | some n =>
        simp [lookupFnInLibraries, List.findSome?_cons, h, hin,
          ← lookupFnInFunctions_eq_findSome]
      | none =>
        simp [lookupFnInLibraries, List.findSome?_cons, h, hin, ih,
          ← lookupFnInFunctions_eq_findSome]
    · simp [lookupFnInLibraries, List.findSome?_cons, h, ih]

theorem lookupFnInModules_eq_firstMatch (mods : List (String × NidModule)) (lnid fnid : Nat) :
    lookupFnInModules mods lnid fnid = nidFirstMatchFn mods lnid fnid := by
  induction mods with
  | nil => rfl
  | cons hd tl ih =>
    obtain ⟨name, m⟩ := hd
    cases hm : m.libraries with
    | none =>
      simp only [lookupFnInModules, hm]
      rw [ih]
      simp [nidFirstMatchFn, List.findSome?_cons, hm]
    | some libs =>
      cases hin : lookupFnInLibraries libs lnid fnid with
      | some n =>
        simp only [lookupFnInModules, hm, hin]
        simp [nidFirstMatchFn, List.findSome?_cons, hm,
          ← lookupFnInLibraries_eq_findSome, hin]
      | none =>
        simp only [lookupFnInModules, hm, hin]
        rw [ih]
        simp [nidFirstMatchFn, List.findSome?_cons, hm,
          ← lookupFnInLibraries_eq_findSome, hin]

theorem lookupVarInVariables_eq_findSome (vs : List (String × Nat)) (vnid : Nat) :
    lookupVarInVariables vs vnid
      = vs.findSome? (fun r => if r.2 = vnid then some r.1 else none) := by
  induction vs with
  | nil => rfl
  | cons hd tl ih =>
    obtain ⟨name, nid⟩ := hd
    by_cases h : nid = vnid
    · simp [lookupVarInVariables, List.findSome?_cons, h]
    · simp [lookupVarInVariables, List.findSome?_cons, h, ih]

theorem lookupVarInLibraries_eq_findSome (libs : List (String × NidLib)) (lnid vnid : Nat) :
    lookupVarInLibraries libs lnid vnid
      = libs.findSome? (fun q =>
          if q.2.nid = some lnid then
            q.2.vars.findSome? fun r => if r.2 = vnid then some r.1 else none
          else none) := by
  induction libs with
  | nil => rfl
  | cons hd tl ih =>
    obtain ⟨name, lib⟩ := hd
    by_cases h : lib.nid = some lnid
    · cases hin : lookupVarInVariables lib.vars vnid with
      | some n =>
        simp [lookupVarInLibraries, List.findSome?_cons, h, hin,
          ← lookupVarInVariables_eq_findSome]
      | none =>
        simp [lookupVarInLibraries, List.findSome?_cons, h, hin, ih,
          ← lookupVarInVariables_eq_findSome]
    · simp [lookupVarInLibraries, List.findSome?_cons, h, ih]

theorem lookupVarInModules_eq_firstMatch (mods : List (String × NidModule)) (lnid vnid : Nat) :
    lookupVarInModules mods lnid vnid = nidFirstMatchVar mods lnid vnid := by
  induction mods with
  | nil => rfl
  | cons hd tl ih =>
    obtain ⟨name, m⟩ := hd
    cases hm : m.libraries with
    | none =>
      simp only [lookupVarInModules, hm]
      rw [ih]
      simp [nidFirstMatchVar, List.findSome?_cons, hm]
    | some libs =>
      cases hin : lookupVarInLibraries libs lnid vnid with
      | some n =>
        simp only [lookupVarInModules, hm, hin]
        simp [nidFirstMatchVar, List.findSome?_cons, hm,
          ← lookupVarInLibraries_eq_findSome, hin]
      | none =>
        simp only [lookupVarInModules, hm, hin]
        rw [ih]
        simp [nidFirstMatchVar, List.findSome?_cons, hm,
          ← lookupVarInLibraries_eq_findSome, hin]

/-- C6: the resolver returns the first matching name in scan order when a
match exists, and otherwise (including an absent database) the synthetic
name library_name, underscore, identifier as 8 uppercase hex digits; in
particular SceKernel with absent identifier 0xDEADBEEF resolves to
SceKernel_DEADBEEF. -/
theorem C6_lookup_nid_resolution :
    (∀ (db : NidDb) (lnid fnid : Nat) (lname : String),
       lookup_nid_function db lnid fnid lname
         = ((db.bind fun mods => nidFirstMatchFn mods lnid fnid).getD
             (lname ++ "_" ++ pyFormat08X fnid)))
    ∧ (∀ (db : NidDb) (lnid vnid : Nat) (lname : String),
       lookup_nid_variable db lnid vnid lname
         = ((db.bind fun mods => nidFirstMatchVar mods lnid vnid).getD
             (lname ++ "_" ++ pyFormat08X vnid)))
    ∧ lookup_nid_function dbSceKernel 0x11111111 0xDEADBEEF "SceKernel"
        = "SceKernel_DEADBEEF"
    ∧ lookup_nid_function dbDup 1 2 "L" = "firstName"
    ∧ lookup_nid_variable dbDup 1 3 "L" = "firstVar"
    ∧ pyFormat08X 0xDEADBEEF = "DEADBEEF" := by
  refine ⟨?_, ?_, by rfl, by rfl, by rfl, by rfl⟩
  · intro db lnid fnid lname
    cases db with
    | none => rfl
    | some mods =>
      rw [show (some mods).bind (fun mods => nidFirstMatchFn mods lnid fnid)
          = nidFirstMatchFn mods lnid fnid from rfl,
        ← lookupFnInModules_eq_firstMatch]
      cases h : lookupFnInModules mods lnid fnid with
      | some n => simp [lookup_nid_function, h]
      | none => simp [lookup_nid_function, h]
  · intro db lnid vnid lname
    cases db with
    | none => rfl
    | some mods =>
      rw [show (some mods).bind (fun mods => nidFirstMatchVar mods lnid vnid)
          = nidFirstMatchVar mods lnid vnid from rfl,
        ← lookupVarInModules_eq_firstMatch]
      cases h : lookupVarInModules mods lnid vnid with
      | some n => simp [lookup_nid_variable, h]
      | none => simp [lookup_nid_variable, h]

/-- C2: a NONAME function entry with identifier 0x935CD196 is emitted as
module_start at the entry-table value minus 1 while the retained
module-start address is the unadjusted value; every other entry is emitted
at the unadjusted value with no module-start assignment; in particular a
raw entry value 0x8108675D emits 0x8108675C and retains 0x8108675D. -/
theorem C2_module_start_offbyone :
    ∀ (db : NidDb) (lnid faddr : Nat),
      processExportFuncEntry db lnid "NONAME" 0x935CD196 faddr
        = (Event.funcSym ((faddr : Int) - 1) "module_start", some faddr)
      ∧ (∀ (lname : String) (fnid : Nat), ¬(lname = "NONAME" ∧ fnid = 0x935CD196) →
          processExportFuncEntry db lnid lname fnid faddr
            = (Event.funcSym (faddr : Int)
                (lookup_nid_function db lnid fnid lname), none))
      ∧ processExportFuncEntry db lnid "NONAME" 0x935CD196 0x8108675D
        = (Event.funcSym 0x8108675C "module_start", some 0x8108675D) := by
  intro db lnid faddr
  refine ⟨?_, ?_, ?_⟩
  · simp [processExportFuncEntry]
  · intro lname fnid h
    simp [processExportFuncEntry, h]
  · simp [processExportFuncEntry]

theorem C2_witness :
    processExportFuncEntry none 0 "NONAME" 0x935CD196 5
      = (Event.funcSym (((5 : Nat) : Int) - 1) "module_start", some 5)
    ∧ processExportFuncEntry none 0 "SceLibc" 7 5
      = (Event.funcSym ((5 : Nat) : Int)
          (lookup_nid_function none 0 7 "SceLibc"), none) :=
  ⟨(C2_module_start_offbyone none 0 5).1,
   (C2_module_start_offbyone none 0 5).2.1 "SceLibc" 7 (by decide)⟩

/-- C4 counterexample: an export record whose attribute has bit 0x8000 set
but does not equal 0x8000 (attribute 0x8001) with a zero name address is
not named NONAME: the source compares the attribute for equality with
0x8000, so it reads a string from the loaded view instead. -/
theorem C4_counterexample :
    (0x8001 &&& 0x8000 = 0x8000)
    ∧ resolveLibraryName 4 memA 0x8001 0 = "A"
    ∧ resolveLibraryName 4 memA 0x8001 0 ≠ "NONAME" := by
  refine ⟨by decide, by decide, by decide⟩

/-- C4 amended: the literal NONAME is used exactly when the attribute
halfword equals 0x8000 (not merely has that bit set) and the name address
is zero; otherwise the name is the NUL-terminated string read from the
loaded view at the name address. -/
theorem C4_amended :
    ∀ (sf : Nat) (bv : Memory) (attrib addr : Nat),
      (attrib = 0x8000 ∧ addr = 0 →
        resolveLibraryName sf bv attrib addr = "NONAME")
      ∧ (¬(attrib = 0x8000 ∧ addr = 0) →
        resolveLibraryName sf bv attrib addr = read_string_at sf bv addr) := by
  intro sf bv a addr
  constructor
  · intro h
    simp [resolveLibraryName, h.1, h.2]
  · intro h
    simp [resolveLibraryName, h]

theorem C4_witness :
    resolveLibraryName 4 memNone 0x8000 0 = "NONAME"
    ∧ resolveLibraryName 4 memA 0x8001 0 = read_string_at 4 memA 0 :=
  ⟨(C4_amended 4 memNone 0x8000 0).1 ⟨rfl, rfl⟩,
   (C4_amended 4 memA 0x8001 0).2 (by decide)⟩

/-- C5 counterexample: a NONAME variable entry with identifier 0x6C2224BA
produces only the create_struct overlay; no data symbol named module_info
is emitted (add_data_symbol is only reached on the non-NONAME branch). -/
theorem C5_counterexample :
    processExportVarEntry none 0 "NONAME" 0x6C2224BA 4096
      = [Event.structDef "SceModuleInfo_prx2arm" 4096]
    ∧ Event.dataSym 4096 "module_info"
        ∉ processExportVarEntry none 0 "NONAME" 0x6C2224BA 4096 := by
  refine ⟨by decide, by decide⟩

/-- C5 amended: under the NONAME library the identifier 0x6C2224BA places a
SceModuleInfo_prx2arm struct overlay at the read address and 0x70FBA1E7 a
SceProcessParam overlay (with no data symbol emitted and any other NONAME
identifier emitting nothing), while entries of every other library are
emitted as data symbols named by the variable resolver. -/
theorem C5_amended :
    ∀ (db : NidDb) (lnid : Nat) (lname : String) (vnid vaddr : Nat),
      (lname = "NONAME" →
        processExportVarEntry db lnid lname vnid vaddr
          = if vnid = 0x6C2224BA then [Event.structDef "SceModuleInfo_prx2arm" vaddr]
            else if vnid = 0x70FBA1E7 then [Event.structDef "SceProcessParam" vaddr]
            else [])
      ∧ (lname ≠ "NONAME" →
        processExportVarEntry db lnid lname vnid vaddr
          = [Event.dataSym vaddr (lookup_nid_variable db lnid vnid lname)]) := by
  intro db lnid lname vnid vaddr
  constructor
  · intro h
    simp [processExportVarEntry, h]
  · intro h
    simp [processExportVarEntry, h]

theorem C5_witness :
    processExportVarEntry none 0 "NONAME" 0x70FBA1E7 8
      = [Event.structDef "SceProcessParam" 8]
    ∧ processExportVarEntry none 0 "SceLibc" 5 8
      = [Event.dataSym 8 (lookup_nid_variable none 0 5 "SceLibc")] := by
  refine ⟨?_, ?_⟩
  · exact ((C5_amended none 0 "NONAME" 0x70FBA1E7 8).1 rfl).trans (by rfl)
  · exact (C5_amended none 0 "SceLibc" 5 8).2 (by decide)

/-- C9 counterexample: with export_top = export_end = 0 and a zero first
program-header offset, the adjusted offsets are zero, so the walker reports
the sections-not-defined error even though the region is empty; the claim
says no error is reported for any common offset adjustment. -/
theorem C9_counterexample :
    process_exports .le 0 memNone memNone none 0 0 0 0 3
      = some { events := [Event.errorLog "Export sections not defined in SceModuleInfo."]
               moduleStart := none }
    ∧ process_imports .le 0 memNone memNone none 0 0 0 0 3
      = some { events := [Event.errorLog "Import sections not defined in SceModuleInfo."]
               records := [] } :=
  ⟨rfl, rfl⟩

/-- C9 amended: whenever the adjusted offsets are nonzero and the declared
region is empty or inverted (end at most top), both walkers decode zero
records, emit zero symbols, and report no error, for any fuel. -/
theorem C9_empty_region :
    ∀ (e : Endian) (sf : Nat) (raw bv : Memory) (db : NidDb)
      (bA p top fin fuel : Nat),
      (top + p ≠ 0 → fin + p ≠ 0 → fin ≤ top →
        process_exports e sf raw bv db bA p top fin fuel
          = some { events := [], moduleStart := none })
      ∧ (top + p ≠ 0 → fin + p ≠ 0 → fin ≤ top →
        process_imports e sf raw bv db bA p top fin fuel
          = some { events := [], records := [] }) := by
  intro e sf raw bv db bA p top fin fuel
  constructor
  · intro h1 h2 h3
    have hnl : ¬ (top + p < fin + p) := by omega
    simp only [process_exports]
    rw [if_neg (show ¬(top + p = 0 ∨ fin + p = 0) by omega)]
    cases fuel with
    | zero => simp [exportLoop, hnl]
    | succ n => simp [exportLoop, hnl]
  · intro h1 h2 h3
    have hnl : ¬ (top + p < fin + p) := by omega
    simp only [process_imports]
    rw [if_neg (show ¬(top + p = 0 ∨ fin + p = 0) by omega)]
    cases fuel with
    | zero => simp [importLoop, hnl]
    | succ n => simp [importLoop, hnl]

theorem C9_witness :
    process_exports .le 0 memNone memNone none 0 0 5 5 3
      = some { events := [], moduleStart := none }
    ∧ process_imports .le 0 memNone memNone none 0 0 7 4 3
      = some { events := [], records := [] } :=
  ⟨(C9_empty_region .le 0 memNone memNone none 0 0 5 5 3).1
      (by decide) (by decide) (by decide),
   (C9_empty_region .le 0 memNone memNone none 0 0 7 4 3).2
      (by decide) (by decide) (by decide)⟩

theorem readBytes_length_prefix (mem : Memory) :
    ∀ (m n off : Nat), m ≤ n → (readBytes mem off n).length = n →
      (readBytes mem off m).length = m := by
  intro m
  induction m with
  | zero => intro n off h hn; rfl
  | succ k ih =>
    intro n off h hn
    cases n with
    | zero => omega
    | succ n2 =>
      cases hb : mem off with
      | none =>
        rw [readBytes, hb] at hn
        simp at hn
      | some b =>
        rw [readBytes, hb] at hn
        rw [readBytes, hb]
        simp only [List.length_cons] at hn ⊢
        have := ih n2 (off + 1) (by omega) (by omega)
        omega

/-- C3: per import record, a 2-byte size of 0x34 selects the 17-field
extended layout and 0x24 the 13-field compact layout, the cursor advancing
by the decoded one-byte structsize; any other size aborts the import loop
at that record with an error while the state gathered so far (events of
previously decoded records and their record list) is returned unchanged. -/
theorem C3_import_size_dispatch :
    ∀ (e : Endian) (sf : Nat) (raw bv : Memory) (db : NidDb)
      (bA p fin fuel off : Nat) (st : ImpState),
      off < fin →
      ((readBytes raw off 2).length = 2 →
          u16v (readBytes raw off 2) ≠ 0x34 → u16v (readBytes raw off 2) ≠ 0x24 →
          importLoop e sf raw bv db bA p fin (fuel + 1) off st
            = some { events := st.events ++ [Event.errorLog "Unknown import size"]
                     records := st.records })
      ∧ (u16v (readBytes raw off 2) = 0x34 →
          (readBytes raw off 0x34).length = 0x34 →
          ∃ evs, importLoop e sf raw bv db bA p fin (fuel + 1) off st
            = importLoop e sf raw bv db bA p fin fuel
                (off + (decodeStub34 e (readBytes raw off 0x34)).structsize)
                { events := st.events ++ evs
                  records := st.records
                    ++ [ImportRec.rec34 (decodeStub34 e (readBytes raw off 0x34))] })
      ∧ (u16v (readBytes raw off 2) = 0x24 →
          (readBytes raw off 0x24).length = 0x24 →
          ∃ evs, importLoop e sf raw bv db bA p fin (fuel + 1) off st
            = importLoop e sf raw bv db bA p fin fuel
                (off + (decodeStub24 e (readBytes raw off 0x24)).structsize)
                { events := st.events ++ evs
                  records := st.records
                    ++ [ImportRec.rec24 (decodeStub24 e (readBytes raw off 0x24))] }) := by
  intro e sf raw bv db bA p fin fuel off st hlt
  refine ⟨?_, ?_, ?_⟩
  · intro hlen h34 h24
    have hstep : importStep e sf raw bv db bA p off
        = .halt [Event.errorLog "Unknown import size"] := by
      simp only [importStep]
      rw [if_neg (by omega), if_neg (by tauto)]
    simp only [importLoop, if_pos hlt, hstep]
  · intro h34 hdlen
    have hlen2 : (readBytes raw off 2).length = 2 :=
      readBytes_length_prefix raw 2 0x34 off (by omega) hdlen
    have hstep : importStep e sf raw bv db bA p off
        = .cont (off + (decodeStub34 e (readBytes raw off 0x34)).structsize)
            (Event.structDef "SceLibStub_prx2arm" (bA + off - p)
              :: (importFuncs bv db (decodeStub34 e (readBytes raw off 0x34)).libname_nid
                    (read_string_at sf bv (decodeStub34 e (readBytes raw off 0x34)).libname)
                    (decodeStub34 e (readBytes raw off 0x34)).func_nidtable
                    (decodeStub34 e (readBytes raw off 0x34)).func_table
                    (decodeStub34 e (readBytes raw off 0x34)).nfunc
                  ++ importVars bv db (decodeStub34 e (readBytes raw off 0x34)).libname_nid
                    (read_string_at sf bv (decodeStub34 e (readBytes raw off 0x34)).libname)
                    (decodeStub34 e (readBytes raw off 0x34)).var_nidtable
                    (decodeStub34 e (readBytes raw off 0x34)).var_table
                    (decodeStub34 e (readBytes raw off 0x34)).nvar))
            (.rec34 (decodeStub34 e (readBytes raw off 0x34))) := by
      simp only [importStep]
      rw [if_neg (by omega), h34]
      rw [if_pos (by decide : (0x34 : Nat) = 0x34 ∨ (0x34 : Nat) = 0x24)]
      rw [if_neg (by omega : ¬ (readBytes raw off 0x34).length < 0x34)]
      rw [if_pos (by decide : (0x34 : Nat) = 0x34)]
    simp only [importLoop, if_pos hlt, hstep]
    exact ⟨_, rfl⟩
  · intro h24 hdlen
    have hlen2 : (readBytes raw off 2).length = 2 :=
      readBytes_length_prefix raw 2 0x24 off (by omega) hdlen
    have hstep : importStep e sf raw bv db bA p off
        = .cont (off + (decodeStub24 e (readBytes raw off 0x24)).structsize)
            (Event.structDef "SceLibStub_prx2arm_new" (bA + off - p)
              :: (importFuncs bv db (decodeStub24 e (readBytes raw off 0x24)).libname_nid
                    (read_string_at sf bv (decodeStub24 e (readBytes raw off 0x24)).libname)
                    (decodeStub24 e (readBytes raw off 0x24)).func_nidtable
                    (decodeStub24 e (readBytes raw off 0x24)).func_table
                    (decodeStub24 e (readBytes raw off 0x24)).nfunc
                  ++ importVars bv db (decodeStub24 e (readBytes raw off 0x24)).libname_nid
                    (read_string_at sf bv (decodeStub24 e (readBytes raw off 0x24)).libname)
                    (decodeStub24 e (readBytes raw off 0x24)).var_nidtable
                    (decodeStub24 e (readBytes raw off 0x24)).var_table
                    (decodeStub24 e (readBytes raw off 0x24)).nvar))
            (.rec24 (decodeStub24 e (readBytes raw off 0x24))) := by
      simp only [importStep]
      rw [if_neg (by omega), h24]
      rw [if_pos (by decide : (0x24 : Nat) = 0x34 ∨ (0x24 : Nat) = 0x24)]
      rw [if_neg (by omega : ¬ (readBytes raw off 0x24).length < 0x24)]
      rw [if_neg (by decide : ¬ (0x24 : Nat) = 0x34)]
    simp only [importLoop, if_pos hlt, hstep]
    exact ⟨_, rfl⟩

theorem C3_witness :
    (importLoop .le 0 memImp memNone none 0 0 48 1 0x28 ⟨[], []⟩
      = some { events := [Event.errorLog "Unknown import size"], records := [] })
    ∧ (∃ evs, importLoop .le 0 memImp memNone none 0 0 48 1 4 ⟨[], []⟩
        = importLoop .le 0 memImp memNone none 0 0 48 0
            (4 + (decodeStub24 .le (readBytes memImp 4 0x24)).structsize)
            { events := [] ++ evs
              records := []
                ++ [ImportRec.rec24 (decodeStub24 .le (readBytes memImp 4 0x24))] }) := by
  refine ⟨?_, ?_⟩
  · have h := (C3_import_size_dispatch .le 0 memImp memNone none 0 0 48 0 0x28
      ⟨[], []⟩ (by decide)).1 (by decide) (by decide) (by decide)
    simpa using h
  · exact (C3_import_size_dispatch .le 0 memImp memNone none 0 0 48 0 4
      ⟨[], []⟩ (by decide)).2.2 (by decide) (by decide)

theorem readBytes_head (mem : Memory) (off n : Nat)
    (h : 0 < (readBytes mem off n).length) :
    ∃ b, mem off = some b ∧ byteAt (readBytes mem off n) 0 = b := by
  cases n with
  | zero => simp [readBytes] at h
  | succ k =>
    cases hb : mem off with
    | none => simp [readBytes, hb] at h
    | some b =>
      refine ⟨b, rfl, ?_⟩
      simp [readBytes, hb, byteAt]

/-- When an export step continues, the cursor advance is exactly the byte
at the cursor (the one-byte structsize field of the decoded record). -/
theorem exportStep_cont_offset (e : Endian) (sf : Nat) (raw bv : Memory)
    (db : NidDb) (bA p off off2 : Nat) (evs : List Event) (ms : Option Nat)
    (hstep : exportStep e sf raw bv db bA p off = .cont off2 evs ms) :
    ∃ b, raw off = some b ∧ off2 = off + b := by
  simp only [exportStep] at hstep
  by_cases h1 : (readBytes raw off 2).length < 2
  · rw [if_pos h1] at hstep; cases hstep
  rw [if_neg h1] at hstep
  by_cases h2 : (readBytes raw off (u16v (readBytes raw off 2))).length
      < u16v (readBytes raw off 2)
  · rw [if_pos h2] at hstep; cases hstep
  rw [if_neg h2] at hstep
  by_cases h3 : (readBytes raw off (u16v (readBytes raw off 2))).length < 32
  · rw [if_pos h3] at hstep; cases hstep
  rw [if_neg h3] at hstep
  obtain ⟨b, hb, hhead⟩ :=
    readBytes_head raw off (u16v (readBytes raw off 2)) (by omega)
  injection hstep with h4 h5 h6
  refine ⟨b, hb, ?_⟩
  simp only [decodeLibEnt] at h4
  omega

/-- When an import step continues, the advance is the byte at the cursor
and that byte is positive: the dispatched two-byte size is 0x34 or 0x24,
forcing the low byte to 0x34 or 0x24. -/
theorem importStep_cont_offset (e : Endian) (sf : Nat) (raw bv : Memory)
    (db : NidDb) (bA p off off2 : Nat) (evs : List Event) (rec : ImportRec)
    (hstep : importStep e sf raw bv db bA p off = .cont off2 evs rec) :
    ∃ b, raw off = some b ∧ off2 = off + b ∧ 1 ≤ b := by
  simp only [importStep] at hstep
  by_cases h1 : (readBytes raw off 2).length < 2
  · rw [if_pos h1] at hstep; cases hstep
  rw [if_neg h1] at hstep
  by_cases h2 : u16v (readBytes raw off 2) = 0x34 ∨ u16v (readBytes raw off 2) = 0x24
  swap
  · rw [if_neg h2] at hstep; cases hstep
  rw [if_pos h2] at hstep
  by_cases h3 : (readBytes raw off (u16v (readBytes raw off 2))).length
      < u16v (readBytes raw off 2)
  · rw [if_pos h3] at hstep; cases hstep
  rw [if_neg h3] at hstep
  obtain ⟨b2, hb2, hhead2⟩ := readBytes_head raw off 2 (by omega)
  obtain ⟨b, hb, hhead⟩ :=
    readBytes_head raw off (u16v (readBytes raw off 2)) (by omega)
  have hbb : b = b2 := by
    rw [hb] at hb2
    exact Option.some.inj hb2
  have hu : u16v (readBytes raw off 2) = b2 + 256 * byteAt (readBytes raw off 2) 1 := by
    simp only [u16v, hhead2]
  by_cases h34 : u16v (readBytes raw off 2) = 0x34
  · rw [if_pos h34] at hstep
    injection hstep with h4 h5 h6
    refine ⟨b, hb, ?_, ?_⟩
    · simp only [decodeStub34] at h4
      omega
    · omega
  · rw [if_neg h34] at hstep
    injection hstep with h4 h5 h6
    refine ⟨b, hb, ?_, ?_⟩
    · simp only [decodeStub24] at h4
      omega
    · have h24 : u16v (readBytes raw off 2) = 0x24 := by tauto
      omega

/-- If one export step at off continues without moving the cursor, the
loop never terminates: it returns none for every fuel. -/
theorem exportLoop_stall (e : Endian) (sf : Nat) (raw bv : Memory)
    (db : NidDb) (bA p fin off : Nat) (evs : List Event) (ms : Option Nat)
    (hlt : off < fin)
    (hstep : exportStep e sf raw bv db bA p off = .cont off evs ms) :
    ∀ fuel st, exportLoop e sf raw bv db bA p fin fuel off st = none := by
  intro fuel
  induction fuel with
  | zero => intro st; simp [exportLoop, hlt]
  | succ k ih =>
    intro st
    simp only [exportLoop, if_pos hlt, hstep]
    exact ih _

/-- Export termination when no structsize byte is zero. -/
theorem exportLoop_terminates (e : Endian) (sf : Nat) (raw bv : Memory)
    (db : NidDb) (bA p fin : Nat) (H : ∀ o, raw o ≠ some 0) :
    ∀ fuel off st, fin - off ≤ fuel →
      ∃ r, exportLoop e sf raw bv db bA p fin fuel off st = some r := by
  intro fuel
  induction fuel with
  | zero =>
    intro off st h
    have hnl : ¬ off < fin := by omega
    exact ⟨st, by simp [exportLoop, hnl]⟩
  | succ k ih =>
    intro off st h
    by_cases hlt : off < fin
    · cases hstep : exportStep e sf raw bv db bA p off with
      | halt errs =>
        refine ⟨{ st with events := st.events ++ errs }, ?_⟩
        simp [exportLoop, hlt, hstep]
      | cont off2 evs ms =>
        obtain ⟨b, hb, hoff⟩ :=
          exportStep_cont_offset e sf raw bv db bA p off off2 evs ms hstep
        have hb1 : 1 ≤ b := by
          by_contra hc
          have hb0 : b = 0 := by omega
          exact H off (hb0 ▸ hb)
        cases ms with
        | none =>
          obtain ⟨r, hr⟩ := ih off2
            { events := st.events ++ evs, moduleStart := st.moduleStart } (by omega)
          refine ⟨r, ?_⟩
          simp only [exportLoop, if_pos hlt, hstep]
          exact hr
        | some v =>
          obtain ⟨r, hr⟩ := ih off2
            { events := st.events ++ evs, moduleStart := some v } (by omega)
          refine ⟨r, ?_⟩
          simp only [exportLoop, if_pos hlt, hstep]
          exact hr
    · exact ⟨st, by simp [exportLoop, hlt]⟩

/-- Import termination for every input: each continuing step advances by a
positive structsize because the dispatch only accepts sizes 0x34 and 0x24. -/
theorem importLoop_terminates (e : Endian) (sf : Nat) (raw bv : Memory)
    (db : NidDb) (bA p fin : Nat) :
    ∀ fuel off st, fin - off ≤ fuel →
      ∃ r, importLoop e sf raw bv db bA p fin fuel off st = some r := by
  intro fuel
  induction fuel with
  | zero =>
    intro off st h
    have hnl : ¬ off < fin := by omega
    exact ⟨st, by simp [importLoop, hnl]⟩
  | succ k ih =>
    intro off st h
    by_cases hlt : off < fin
    · cases hstep : importStep e sf raw bv db bA p off with
      | halt errs =>
        refine ⟨{ st with events := st.events ++ errs }, ?_⟩
        simp [importLoop, hlt, hstep]
      | cont off2 evs rec =>
        obtain ⟨b, hb, hoff, hb1⟩ :=
          importStep_cont_offset e sf raw bv db bA p off off2 evs rec hstep
        obtain ⟨r, hr⟩ := ih off2
          { events := st.events ++ evs, records := st.records ++ [rec] }
          (by omega)
        refine ⟨r, ?_⟩
        simp only [importLoop, if_pos hlt, hstep]
        exact hr
    · exact ⟨st, by simp [importLoop, hlt]⟩

set_option maxRecDepth 8000 in
theorem exportStep_badMem :
    exportStep .le 0 badMem memNone none 0 0 4
      = .cont 4 [Event.structDef "SceLibEnt_prx2arm" 4] none := by
  decide

/-- C10: the walks advance the cursor by the decoded one-byte structsize
field rather than by the two-byte size used to read the record, so the
export loop diverges on an input whose record has first byte 0 and second
byte 1 (two-byte size 0x100 reads successfully, structsize is 0); under
the precondition that no structsize byte is zero the export loop
terminates; the import loop terminates for every input because its size
dispatch only accepts 0x34 and 0x24, whose low structsize byte is
positive. -/
theorem C10_walk_termination :
    (∀ fuel st, exportLoop .le 0 badMem memNone none 0 0 260 fuel 4 st = none)
    ∧ (∀ (e : Endian) (sf : Nat) (raw bv : Memory) (db : NidDb)
        (bA p fin fuel off : Nat) (st : ExpState),
        (∀ o, raw o ≠ some 0) → fin - off ≤ fuel →
        ∃ r, exportLoop e sf raw bv db bA p fin fuel off st = some r)
    ∧ (∀ (e : Endian) (sf : Nat) (raw bv : Memory) (db : NidDb)
        (bA p fin fuel off : Nat) (st : ImpState),
        fin - off ≤ fuel →
        ∃ r, importLoop e sf raw bv db bA p fin fuel off st = some r) := by
  refine ⟨?_, ?_, ?_⟩
  · exact exportLoop_stall .le 0 badMem memNone none 0 0 260 4
      [Event.structDef "SceLibEnt_prx2arm" 4] none (by decide) exportStep_badMem
  · intro e sf raw bv db bA p fin fuel off st H h
    exact exportLoop_terminates e sf raw bv db bA p fin H fuel off st h
  · intro e sf raw bv db bA p fin fuel off st h
    exact importLoop_terminates e sf raw bv db bA p fin fuel off st h

theorem C10_witness :
    (∃ r, exportLoop .le 0 memOnes memNone none 0 0 8 8 4
        { events := [], moduleStart := none } = some r)
    ∧ (∃ r, importLoop .le 0 memNone memNone none 0 0 8 8 4
        { events := [], records := [] } = some r) :=
  ⟨C10_walk_termination.2.1 .le 0 memOnes memNone none 0 0 8 8 4
      { events := [], moduleStart := none }
      (fun o => by unfold memOnes; split <;> simp) (by decide),
   C10_walk_termination.2.2 .le 0 memNone memNone none 0 0 8 8 4
      { events := [], records := [] } (by decide)⟩

/-- C7 counterexample: two valid 32-bit little-endian 52-byte headers that
differ in e_ident padding byte 8 decode to the same fields, so no
re-encoding of the decoded fields can reproduce both originals byte for
byte: the decoded fields do not suffice to re-encode the full header. -/
theorem C7_counterexample :
    parseElfHeader hdrA = parseElfHeader hdrB
    ∧ hdrA ≠ hdrB
    ∧ (parseElfHeader hdrA).isSome = true := by
  refine ⟨rfl, by decide, rfl⟩

/-- C7 amended: for every valid 32-bit little-endian header, re-encoding
the 13 decoded fields reproduces bytes 16 to 52 of the original header
exactly (the identifier bytes 0 to 3 and 6 to 15 are not decoded and are
therefore outside the round trip). -/
theorem C7_amended_roundtrip (i0 i1 i2 i3 i6 i7 i8 i9 i10 i11 i12 i13 i14 i15 t0 t1 m0 m1 v0 v1 v2 v3 en0 en1 en2 en3 po0 po1 po2 po3 so0 so1 so2 so3 fl0 fl1 fl2 fl3 eh0 eh1 pe0 pe1 pn0 pn1 se0 se1 sn0 sn1 sx0 sx1 : Nat)
    (hb0 : t0 < 256)
    (hb1 : t1 < 256)
    (hb2 : m0 < 256)
    (hb3 : m1 < 256)
    (hb4 : v0 < 256)
    (hb5 : v1 < 256)
    (hb6 : v2 < 256)
    (hb7 : v3 < 256)
    (hb8 : en0 < 256)
    (hb9 : en1 < 256)
    (hb10 : en2 < 256)
    (hb11 : en3 < 256)
    (hb12 : po0 < 256)
    (hb13 : po1 < 256)
    (hb14 : po2 < 256)
    (hb15 : po3 < 256)
    (hb16 : so0 < 256)
    (hb17 : so1 < 256)
    (hb18 : so2 < 256)
    (hb19 : so3 < 256)
    (hb20 : fl0 < 256)
    (hb21 : fl1 < 256)
    (hb22 : fl2 < 256)
    (hb23 : fl3 < 256)
    (hb24 : eh0 < 256)
    (hb25 : eh1 < 256)
    (hb26 : pe0 < 256)
    (hb27 : pe1 < 256)
    (hb28 : pn0 < 256)
    (hb29 : pn1 < 256)
    (hb30 : se0 < 256)
    (hb31 : se1 < 256)
    (hb32 : sn0 < 256)
    (hb33 : sn1 < 256)
    (hb34 : sx0 < 256)
    (hb35 : sx1 < 256) :
    ∃ f, parseElfHeader [i0, i1, i2, i3, 1, 1, i6, i7, i8, i9, i10, i11, i12, i13, i14, i15, t0, t1, m0, m1, v0, v1, v2, v3, en0, en1, en2, en3, po0, po1, po2, po3, so0, so1, so2, so3, fl0, fl1, fl2, fl3, eh0, eh1, pe0, pe1, pn0, pn1, se0, se1, sn0, sn1, sx0, sx1] = some f
      ∧ encodeHeaderFieldsLE f = [t0, t1, m0, m1, v0, v1, v2, v3, en0, en1, en2, en3, po0, po1, po2, po3, so0, so1, so2, so3, fl0, fl1, fl2, fl3, eh0, eh1, pe0, pe1, pn0, pn1, se0, se1, sn0, sn1, sx0, sx1]
      ∧ f.ei_class = 1 ∧ f.ei_data = 1 := by
  refine ⟨_, rfl, ?_, rfl, rfl⟩
  simp [encodeHeaderFieldsLE, enc16, enc32, u16pair, u32quad]
  omega

theorem C7_witness :
    ∃ f, parseElfHeader [0x7F, 0x45, 0x4C, 0x46, 1, 1, 1, 0, 0, 0, 0, 0, 0, 0, 0, 0, 0x04, 0xFE, 0x28, 0x00, 1, 0, 0, 0, 0x80, 0, 0, 0x40, 0x34, 0, 0, 0, 0, 0, 0, 0, 0, 0, 0, 0, 0x34, 0, 0x20, 0, 1, 0, 0, 0, 0, 0, 0, 0] = some f
      ∧ encodeHeaderFieldsLE f = [0x04, 0xFE, 0x28, 0x00, 1, 0, 0, 0, 0x80, 0, 0, 0x40, 0x34, 0, 0, 0, 0, 0, 0, 0, 0, 0, 0, 0, 0x34, 0, 0x20, 0, 1, 0, 0, 0, 0, 0, 0, 0]
      ∧ f.ei_class = 1 ∧ f.ei_data = 1 :=
  C7_amended_roundtrip 0x7F 0x45 0x4C 0x46 1 0 0 0 0 0 0 0 0 0 0x04 0xFE 0x28 0x00 1 0 0 0 0x80 0 0 0x40 0x34 0 0 0 0 0 0 0 0 0 0 0 0x34 0 0x20 0 1 0 0 0 0 0 0 0
    (by decide) (by decide) (by decide) (by decide) (by decide) (by decide) (by decide) (by decide) (by decide) (by decide) (by decide) (by decide) (by decide) (by decide) (by decide) (by decide) (by decide) (by decide) (by decide) (by decide) (by decide) (by decide) (by decide) (by decide) (by decide) (by decide) (by decide) (by decide) (by decide) (by decide) (by decide) (by decide) (by decide) (by decide) (by decide) (by decide)

/-- C8 counterexample: on a well-formed header whose program-header count
is zero, the table loop leaves the table empty and parse_elf then fails
fatally taking base_addr from entry 0 of the empty table, so header
parsing does not complete without a fatal error in the empty-table case. -/
theorem C8_counterexample :
    (parseElfHeader (readBytes (memOfList hdrC8) 0 0x40)).isSome = true
    ∧ (parseElfHeader (readBytes (memOfList hdrC8) 0 0x40)).map ElfHeaderRec.e_phnum
        = some 0
    ∧ parseElf (memOfList hdrC8) = none := by
  refine ⟨rfl, rfl, rfl⟩

theorem parsePhdrsLoop_eq_spec (e : Endian) (mem : Memory) (phoff : Nat) :
    ∀ (n i : Nat),
      parsePhdrsLoop e mem phoff 32 i n
        = some ((List.range' i n).filterMap fun j =>
            let d := readBytes mem (phoff + j * 32) 32
            if d.length < 32 then none else some (decodePhdr e d)) := by
  intro n
  induction n with
  | zero => intro i; simp [parsePhdrsLoop]
  | succ k ih =>
    intro i
    by_cases h : (readBytes mem (phoff + i * 32) 32).length < 32
    · simp only [parsePhdrsLoop, if_pos h, ih (i + 1)]
      rw [show List.range' i (k + 1) = i :: List.range' (i + 1) k from rfl]
      simp [List.filterMap_cons, h]
    · simp only [parsePhdrsLoop, if_neg h, if_pos rfl, ih (i + 1)]
      rw [show List.range' i (k + 1) = i :: List.range' (i + 1) k from rfl]
      simp [List.filterMap_cons, h]

/-- C8 amended: with the standard 32-byte entry size, the program-header
loop never fails: it returns, for every entry count, exactly the list of
entries whose reads were complete, in table order with short reads omitted
(so any number of entries may be dropped, including all of them); the
overall parse_elf is only fatal afterward, when the resulting table is
empty and base_addr is taken from entry 0. -/
theorem C8_short_reads_skipped :
    ∀ (e : Endian) (mem : Memory) (phoff n : Nat),
      parsePhdrsLoop e mem phoff 32 0 n = some (phdrsSpecList e mem phoff n) := by
  intro e mem phoff n
  simp only [phdrsSpecList, List.range_eq_range']
  exact parsePhdrsLoop_eq_spec e mem phoff n 0
